import Mathlib

/-!
Shallow embedding of the OsemaFadhel/web-scraper extraction-persistence pipeline.

The relational store (SQLAlchemy + SQLite/MySQL/Postgres) is modelled as an
in-memory `Store` of row lists.  Each SQLAlchemy commit is atomic: a commit
either appends all rows staged in the unit of work or (on failure) rolls back
leaving the store unchanged, with the error propagating.  Failure of a commit
is injected through an explicit `failWith : Option String` oracle standing for
the exception the database driver may raise at that commit point.

Timestamps are not modelled (no claim depends on real time); the JSON metadata
bag is modelled as an association list of string pairs.
-/

deriving instance DecidableEq for Except

namespace WebScraper

/-! Executable character-level renderings of the Python string operations the
code uses (startswith, substring membership via `in`, split, replace).  They
are written over `List Char` so that concrete instances reduce in the kernel. -/

/-- Python s.startswith(pre). -/
def charStartsWith (s pre : String) : Bool := pre.data.isPrefixOf s.data

/-- Occurrence of pat as a contiguous sublist. -/
def hasSub (pat : List Char) : List Char → Bool
  | [] => pat.isEmpty
  | c :: rest => pat.isPrefixOf (c :: rest) || hasSub pat rest

/-- Python `pat in s` (substring membership). -/
def strHasSub (s pat : String) : Bool := hasSub pat.data s.data

/-- Characters after the first occurrence of pat (empty if pat is absent). -/
def afterFirstSub (pat : List Char) : List Char → List Char
  | [] => []
  | c :: rest => if pat.isPrefixOf (c :: rest) then (c :: rest).drop pat.length
                 else afterFirstSub pat rest

/-- Characters before the first occurrence of pat (the whole list if absent). -/
def upToSub (pat : List Char) : List Char → List Char
  | [] => []
  | c :: rest => if pat.isPrefixOf (c :: rest) then [] else c :: upToSub pat rest

/-- Python s.split(pat)[1]: the segment between the first occurrence of pat
and the following one (or the end). -/
def splitSecond (s pat : String) : String :=
  ⟨upToSub pat.data (afterFirstSub pat.data s.data)⟩

/-- Left-to-right non-overlapping replacement, fuelled for structural
termination (the fuel is the input length, enough for non-empty patterns). -/
def replaceSubAux (pat rep : List Char) : Nat → List Char → List Char
  | 0, l => l
  | _ + 1, [] => []
  | fuel + 1, c :: rest =>
      if pat.isPrefixOf (c :: rest) then
        rep ++ replaceSubAux pat rep fuel ((c :: rest).drop pat.length)
      else c :: replaceSubAux pat rep fuel rest

/-- Python s.replace(pat, rep). -/
def strReplace (s pat rep : String) : String :=
  ⟨replaceSubAux pat.data rep.data s.data.length s.data⟩

/-! Data model, from src/database/models.py.  Column defaults that the code
relies on (is_valid true, alt_text/title NULL) are materialised at insert. -/

abbrev Metadata := List (String × String)

structure SessionRow where
  id : Nat
  url : String
  scraper_type : String
  status : String
  error_message : Option String
  extra_data : Option Metadata
deriving DecidableEq, Repr

structure ElementRow where
  session_id : Nat
  css_selector : String
  element_text : String
  position : Nat
deriving DecidableEq, Repr

structure LinkRow where
  session_id : Nat
  url : String
  is_external : Bool
  is_valid : Bool
deriving DecidableEq, Repr

structure EmailRow where
  session_id : Nat
  email : String
deriving DecidableEq, Repr

structure ImageRow where
  session_id : Nat
  image_url : String
  alt_text : Option String
  title : Option String
deriving DecidableEq, Repr

structure Store where
  sessions : List SessionRow
  elements : List ElementRow
  links : List LinkRow
  emails : List EmailRow
  images : List ImageRow
  next_id : Nat
deriving DecidableEq, Repr

def Store.empty : Store := ⟨[], [], [], [], [], 0⟩

/-! Repositories, from src/database/repository.py. -/

/-- ScrapingSessionRepository.save: builds the session row, adds it and COMMITS
it immediately (its own `self.db_session.commit()`), then returns the refreshed
row.  The commit is its own transaction, separate from any later batch save. -/
def ScrapingSessionRepository.save (st : Store) (url scraper_type status : String)
    (error_message : Option String) (metadata : Option Metadata) : SessionRow × Store :=
  let row : SessionRow := ⟨st.next_id, url, scraper_type, status, error_message, metadata⟩
  (row, { st with sessions := st.sessions ++ [row], next_id := st.next_id + 1 })

/-- ScrapingSessionRepository.find_by_id: first session row with the given id. -/
def ScrapingSessionRepository.find_by_id (st : Store) (id : Nat) : Option SessionRow :=
  st.sessions.find? (fun s => s.id == id)

/-- ElementRepository.save_batch: enumerates the inputs into rows (zero-based
position) and commits them in ONE transaction; on failure the whole batch rolls
back (store unchanged) and the error propagates. -/
def ElementRepository.save_batch (st : Store) (session_id : Nat) (css_selector : String)
    (elements : List String) (failWith : Option String) : Except String Store :=
  match failWith with
  | some e => .error e
  | none => .ok { st with elements :=
      st.elements ++ elements.enum.map (fun p => ⟨session_id, css_selector, p.2, p.1⟩) }

/-- The ORDER BY position of ElementRepository.find_by_session, as a stable
insertion sort on the position column. -/
def insertByPosition (e : ElementRow) : List ElementRow → List ElementRow
  | [] => [e]
  | x :: xs => if e.position ≤ x.position then e :: x :: xs else x :: insertByPosition e xs

def sortByPosition : List ElementRow → List ElementRow
  | [] => []
  | x :: xs => insertByPosition x (sortByPosition xs)

/-- ElementRepository.find_by_session: all element rows of the session, ordered
by position. -/
def ElementRepository.find_by_session (st : Store) (session_id : Nat) : List ElementRow :=
  sortByPosition (st.elements.filter (fun e => e.session_id == session_id))

/-- The inline external-link test of LinkRepository.save_batch:
`not (link_url.startswith('/') or 'localhost' in link_url)`. -/
def linkIsExternal (link_url : String) : Bool :=
  !(charStartsWith link_url "/" || strHasSub link_url "localhost")

/-- LinkRepository.save_batch: one row per link with the derived is_external
flag (is_valid defaults to true); a single commit, all-or-nothing. -/
def LinkRepository.save_batch (st : Store) (session_id : Nat)
    (links : List String) (failWith : Option String) : Except String Store :=
  match failWith with
  | some e => .error e
  | none => .ok { st with links :=
      st.links ++ links.map (fun u => ⟨session_id, u, linkIsExternal u, true⟩) }

/-- LinkRepository.find_by_session: all link rows of the session (no ORDER BY;
insertion order). -/
def LinkRepository.find_by_session (st : Store) (session_id : Nat) : List LinkRow :=
  st.links.filter (fun l => l.session_id == session_id)

/-- EmailRepository.save_batch: one row per email; a single commit. -/
def EmailRepository.save_batch (st : Store) (session_id : Nat)
    (emails : List String) (failWith : Option String) : Except String Store :=
  match failWith with
  | some e => .error e
  | none => .ok { st with emails := st.emails ++ emails.map (fun a => ⟨session_id, a⟩) }

/-- EmailRepository.find_by_session: all email rows of the session. -/
def EmailRepository.find_by_session (st : Store) (session_id : Nat) : List EmailRow :=
  st.emails.filter (fun e => e.session_id == session_id)

/-- ImageRepository.save_batch: one row per image URL (alt_text and title are
left at their NULL column defaults); a single commit. -/
def ImageRepository.save_batch (st : Store) (session_id : Nat)
    (images : List String) (failWith : Option String) : Except String Store :=
  match failWith with
  | some e => .error e
  | none => .ok { st with images :=
      st.images ++ images.map (fun u => ⟨session_id, u, none, none⟩) }

/-- ImageRepository.find_by_session: all image rows of the session. -/
def ImageRepository.find_by_session (st : Store) (session_id : Nat) : List ImageRow :=
  st.images.filter (fun i => i.session_id == session_id)

/-! Service layer, from src/database/service.py.  Each save_K_extraction first
has the session repository create AND commit the session row, then (if the
result list is non-empty) runs the batch save as a second commit.  If the batch
commit fails only the batch rolls back: the already-committed session row stays,
and the error propagates through get_db_session to the caller. -/

def DatabaseService.save_element_extraction (st : Store) (url css_selector : String)
    (elements : List String) (metadata : Option Metadata) (failWith : Option String) :
    Except String Nat × Store :=
  let rs := ScrapingSessionRepository.save st url "element_extraction" "success" none
      (some (("css_selector", css_selector) :: metadata.getD []))
  if elements.isEmpty then (.ok rs.1.id, rs.2)
  else
    match ElementRepository.save_batch rs.2 rs.1.id css_selector elements failWith with
    | .error e => (.error e, rs.2)
    | .ok st2 => (.ok rs.1.id, st2)

def DatabaseService.save_link_extraction (st : Store) (url : String)
    (links : List String) (metadata : Option Metadata) (failWith : Option String) :
    Except String Nat × Store :=
  let rs := ScrapingSessionRepository.save st url "link_extraction" "success" none metadata
  if links.isEmpty then (.ok rs.1.id, rs.2)
  else
    match LinkRepository.save_batch rs.2 rs.1.id links failWith with
    | .error e => (.error e, rs.2)
    | .ok st2 => (.ok rs.1.id, st2)

def DatabaseService.save_email_extraction (st : Store) (url : String)
    (emails : List String) (metadata : Option Metadata) (failWith : Option String) :
    Except String Nat × Store :=
  let rs := ScrapingSessionRepository.save st url "email_extraction" "success" none metadata
  if emails.isEmpty then (.ok rs.1.id, rs.2)
  else
    match EmailRepository.save_batch rs.2 rs.1.id emails failWith with
    | .error e => (.error e, rs.2)
    | .ok st2 => (.ok rs.1.id, st2)

def DatabaseService.save_image_extraction (st : Store) (url : String)
    (images : List String) (metadata : Option Metadata) (failWith : Option String) :
    Except String Nat × Store :=
  let rs := ScrapingSessionRepository.save st url "image_extraction" "success" none metadata
  if images.isEmpty then (.ok rs.1.id, rs.2)
  else
    match ImageRepository.save_batch rs.2 rs.1.id images failWith with
    | .error e => (.error e, rs.2)
    | .ok st2 => (.ok rs.1.id, st2)

/-- DatabaseService.save_failed_extraction: records only a session row with
status "failed" and the supplied error message; no child rows are written. -/
def DatabaseService.save_failed_extraction (st : Store) (url scraper_type error_message : String)
    (metadata : Option Metadata) : Except String Nat × Store :=
  let rs := ScrapingSessionRepository.save st url scraper_type "failed"
      (some error_message) metadata
  (.ok rs.1.id, rs.2)

/-! get_session_data and get_statistics, from src/database/service.py. -/

structure ElementEntry where
  text : String
  css_selector : String
  position : Nat
deriving DecidableEq, Repr

structure LinkEntry where
  url : String
  is_external : Bool
  is_valid : Bool
deriving DecidableEq, Repr

structure ImageEntry where
  url : String
  alt_text : Option String
  title : Option String
deriving DecidableEq, Repr

structure SessionInfo where
  id : Nat
  url : String
  scraper_type : String
  status : String
  metadata : Option Metadata
deriving DecidableEq, Repr

inductive SessionPayload where
  | empty : SessionPayload
  | elements : List ElementEntry → SessionPayload
  | links : List LinkEntry → SessionPayload
  | emails : List String → SessionPayload
  | images : List ImageEntry → SessionPayload
deriving DecidableEq, Repr

structure SessionData where
  session : SessionInfo
  data : SessionPayload
deriving DecidableEq, Repr

def DatabaseService.get_session_data (st : Store) (session_id : Nat) : Option SessionData :=
  match ScrapingSessionRepository.find_by_id st session_id with
  | none => none
  | some s =>
    let payload : SessionPayload :=
      if s.scraper_type == "element_extraction" then
        .elements ((ElementRepository.find_by_session st session_id).map
          (fun e => ⟨e.element_text, e.css_selector, e.position⟩))
      else if s.scraper_type == "link_extraction" then
        .links ((LinkRepository.find_by_session st session_id).map
          (fun l => ⟨l.url, l.is_external, l.is_valid⟩))
      else if s.scraper_type == "email_extraction" then
        .emails ((EmailRepository.find_by_session st session_id).map (fun e => e.email))
      else if s.scraper_type == "image_extraction" then
        .images ((ImageRepository.find_by_session st session_id).map
          (fun i => ⟨i.image_url, i.alt_text, i.title⟩))
      else .empty
    some ⟨⟨s.id, s.url, s.scraper_type, s.status, s.extra_data⟩, payload⟩

structure Stats where
  total_sessions : Nat
  successful_sessions : Nat
  failed_sessions : Nat
  total_elements : Nat
  total_links : Nat
  total_emails : Nat
  total_images : Nat
deriving DecidableEq, Repr

def DatabaseService.get_statistics (st : Store) : Stats :=
  ⟨st.sessions.length,
   (st.sessions.filter (fun s => s.status == "success")).length,
   (st.sessions.filter (fun s => s.status == "failed")).length,
   st.elements.length, st.links.length, st.emails.length, st.images.length⟩

/-! Sequences of public save operations, for store-invariant claims. -/

inductive SaveOp where
  | element (url css : String) (elems : List String) (md : Option Metadata) (failWith : Option String)
  | link (url : String) (links : List String) (md : Option Metadata) (failWith : Option String)
  | email (url : String) (emails : List String) (md : Option Metadata) (failWith : Option String)
  | image (url : String) (images : List String) (md : Option Metadata) (failWith : Option String)
  | failed (url scraper_type error_message : String) (md : Option Metadata)

/-- The store after one public save operation (whatever the returned value). -/
def applyOp (st : Store) (op : SaveOp) : Store :=
  match op with
  | .element url css elems md f => (DatabaseService.save_element_extraction st url css elems md f).2
  | .link url links md f => (DatabaseService.save_link_extraction st url links md f).2
  | .email url emails md f => (DatabaseService.save_email_extraction st url emails md f).2
  | .image url images md f => (DatabaseService.save_image_extraction st url images md f).2
  | .failed url t e md => (DatabaseService.save_failed_extraction st url t e md).2

def runOps (st : Store) (ops : List SaveOp) : Store := ops.foldl applyOp st

/-- The session row a public save operation appends (appended whether or not
the subsequent batch commit succeeds, since the session commit comes first). -/
def opSessionRow (st : Store) : SaveOp → SessionRow
  | .element url css _ md _ =>
      ⟨st.next_id, url, "element_extraction", "success", none,
        some (("css_selector", css) :: md.getD [])⟩
  | .link url _ md _ => ⟨st.next_id, url, "link_extraction", "success", none, md⟩
  | .email url _ md _ => ⟨st.next_id, url, "email_extraction", "success", none, md⟩
  | .image url _ md _ => ⟨st.next_id, url, "image_extraction", "success", none, md⟩
  | .failed url t e md => ⟨st.next_id, url, t, "failed", some e, md⟩

/-- The per-session invariant the public save operations maintain: the outcome
is success or failed, and an error message is present exactly on failure. -/
def SessionRowOk (s : SessionRow) : Prop :=
  (s.status = "success" ∨ s.status = "failed") ∧
  (s.error_message.isSome ↔ s.status = "failed")

/-- Store well-formedness: every existing row id or foreign key is below the
next id the store will assign.  Holds for the empty store and is preserved by
every operation. -/
def Store.WF (st : Store) : Prop :=
  (∀ s ∈ st.sessions, s.id < st.next_id) ∧
  (∀ e ∈ st.elements, e.session_id < st.next_id) ∧
  (∀ l ∈ st.links, l.session_id < st.next_id) ∧
  (∀ e ∈ st.emails, e.session_id < st.next_id) ∧
  (∀ i ∈ st.images, i.session_id < st.next_id)

instance (st : Store) : Decidable st.WF := by
  unfold Store.WF; infer_instance

/-! Extraction capability, from src/scraper/*.py.  The external fetch/parse
collaborator (requests session + BeautifulSoup) is modelled by: a parsed page
(`Soup`) is its document-order list of nodes, and the fetch outcome is an
`Except` argument, `.error` when session.get or raise_for_status raises. -/

structure Node where
  tag : String
  attrs : List (String × String)
  text : String
deriving DecidableEq, Repr

abbrev Soup := List Node

/-- Model of soup.find_all(tag, attr=True) of the external BeautifulSoup
collaborator: scan the document-order node list, keeping nodes of the given
tag that carry the given attribute. -/
def findAllWithAttr (soup : Soup) (tag attr : String) : Soup :=
  match soup with
  | [] => []
  | n :: rest =>
    (if n.tag == tag && (n.attrs.lookup attr).isSome then [n] else [])
      ++ findAllWithAttr rest tag attr

/-- Attribute access n[attr] on a node known to carry the attribute. -/
def attrGet (n : Node) (attr : String) : String :=
  (n.attrs.lookup attr).getD ""

/-- The scheme-and-host part of a base URL, for root-relative joins. -/
def schemeHost (base : String) : String :=
  if strHasSub base "://" then
    ⟨upToSub "://".data base.data ++ "://".data ++
      (afterFirstSub "://".data base.data).takeWhile (fun c => c != '/')⟩
  else base

/-- The base URL up to and including its last slash, for relative joins. -/
def baseDir (base : String) : String :=
  ⟨(base.data.reverse.dropWhile (fun c => c != '/')).reverse⟩

/-- Model of the external requests.compat.urljoin collaborator — also the
absolute-form resolution that the specification describes: an absolute
reference is kept, a root-relative one is joined to the base's scheme and
host, any other relative one to the base's directory. -/
def urljoin (base href : String) : String :=
  if strHasSub href "://" then href
  else if charStartsWith href "/" then schemeHost base ++ href
  else baseDir base ++ href

/-- LinkExtractor.scrape (src/scraper/link_extractor.py): fetch (raising on
failure), parse, and return `[a['href'] for a in soup.find_all('a', href=True)]`
— the raw href values, unresolved. -/
def LinkExtractor.scrape (fetched : Except String Soup) : Except String (List String) :=
  match fetched with
  | .error e => .error e
  | .ok soup => .ok ((findAllWithAttr soup "a" "href").map (fun n => attrGet n "href"))

/-- The link extraction the specification describes, for comparison: the href
of every anchor that has one, in document order, each value resolved to
absolute form against the page's own URL. -/
def specResolvedLinks (pageUrl : String) (soup : Soup) : List String :=
  (findAllWithAttr soup "a" "href").map (fun n => urljoin pageUrl (attrGet n "href"))

/-- Model of Python set insertion (emails.add): keep the list free of
duplicates, recording first-insertion order. -/
def pySetAdd (l : List String) (x : String) : List String :=
  if x ∈ l then l else l ++ [x]

/-- The address an anchor contributes, if any: when 'mailto:' occurs in the
href (Python substring test `in`), the portion href.split('mailto:')[1]. -/
def mailtoOf (n : Node) : Option String :=
  let h := attrGet n "href"
  if strHasSub h "mailto:" then some (splitSecond h "mailto:") else none

/-- The per-anchor step of EmailExtractor.scrape: add the contributed address,
if any, to the set. -/
def emailStep (acc : List String) (n : Node) : List String :=
  match mailtoOf n with
  | some a => pySetAdd acc a
  | none => acc

/-- The body of EmailExtractor.scrape after a successful fetch/parse: scan the
anchors carrying href, collecting addresses into a set, and return
list(emails). -/
def emailScan (soup : Soup) : List String :=
  (findAllWithAttr soup "a" "href").foldl emailStep []

/-- EmailExtractor.scrape (src/scraper/email_extractor.py): fetch (raising on
failure), parse, then scan. -/
def EmailExtractor.scrape (fetched : Except String Soup) : Except String (List String) :=
  match fetched with
  | .error e => .error e
  | .ok soup => .ok (emailScan soup)

/-- The raw sequence of mailto address occurrences on the page, duplicates
included, in document order — the multiset the extractor's set collapses. -/
def mailtoOccurrences (soup : Soup) : List String :=
  (findAllWithAttr soup "a" "href").filterMap mailtoOf

/-- ElementExtractor.scrape (src/scraper/element_extractor.py): fetch (raising
on failure), parse, `soup.select(css)` — the CSS engine is part of the external
BeautifulSoup collaborator, passed here as `select` — then get_text of each
match in the order select returns. -/
def ElementExtractor.scrape (select : String → Soup → Soup) (css : String)
    (fetched : Except String Soup) : Except String (List String) :=
  match fetched with
  | .error e => .error e
  | .ok soup => .ok ((select css soup).map (fun n => n.text))

/-- ImageExtractor.scrape (src/scraper/image_extractor.py): the whole body sits
in try/except Exception — on ANY error it prints and returns [], so the
function never raises.  On success, img src values are resolved with
requests.compat.urljoin against the page URL. -/
def ImageExtractor.scrape (url : String) (fetched : Except String Soup) :
    Except String (List String) :=
  match fetched with
  | .error _ => .ok []
  | .ok soup => .ok ((findAllWithAttr soup "img" "src").map
      (fun n => urljoin url (attrGet n "src")))

/-! File sink and orchestrator, from src/utils/file_utils.py and
src/scraper/base_scraper.py. -/

/-- Outcome of the file open/json.dump inside save_to_json: success, an
IOError, or some other exception (e.g. a serialization failure). -/
inductive WriteOutcome where
  | ok : WriteOutcome
  | ioError (msg : String) : WriteOutcome
  | otherError (msg : String) : WriteOutcome
deriving DecidableEq, Repr

/-- utils.file_utils.save_to_json: catches IOError, prints it, and returns
normally; any other exception propagates to the caller. -/
def save_to_json (w : WriteOutcome) : Except String Unit :=
  match w with
  | .ok => .ok ()
  | .ioError _ => .ok ()
  | .otherError m => .error m

/-- The result dict of scrape_and_save. `none` in an Option field models the
key being absent (db_error, json_filename, json_error are only ever added). -/
structure ScrapeResult where
  url : String
  success : Bool
  data : List String
  error : Option String
  session_id : Option Nat
  scraper_type : String
  db_error : Option String
  json_filename : Option String
  json_error : Option String
deriving DecidableEq, Repr

/-- The initial result dict built at the top of scrape_and_save. -/
def initResult (url scraper_type : String) : ScrapeResult :=
  ⟨url, false, [], none, none, scraper_type, none, none, none⟩

/-- The default file name f"{scraper_type}_{url.replace('://','_').replace('/','_')}.json". -/
def defaultJsonFilename (scraper_type url : String) : String :=
  scraper_type ++ "_" ++ (strReplace (strReplace url "://" "_") "/" "_") ++ ".json"

/-- Python `json_filename or default`: both None and the empty string fall back
to the default name. -/
def chosenJsonFilename (jsonName : Option String) (scraper_type url : String) : String :=
  match jsonName with
  | some f => if f = "" then defaultJsonFilename scraper_type url else f
  | none => defaultJsonFilename scraper_type url

/-- BaseScraper.scrape_and_save (src/scraper/base_scraper.py), the collaborator
calls summarised by outcome arguments: `scraped` for self.scrape(url), `dbSave`
for self._save_to_database, `failedSave` for save_failed_extraction on the
failure path, `jsonWrite` for the file write attempted inside save_to_json. -/
def BaseScraper.scrape_and_save (url scraper_type : String)
    (save_db has_db save_json : Bool) (jsonName : Option String)
    (scraped : Except String (List String))
    (dbSave : Except String Nat) (failedSave : Except String Nat)
    (jsonWrite : WriteOutcome) : ScrapeResult :=
  let base := initResult url scraper_type
  match scraped with
  | .error e =>
    let r := { base with error := some e, success := false }
    if save_db && has_db then
      match failedSave with
      | .ok sid => { r with session_id := some sid }
      | .error _ => r
    else r
  | .ok data =>
    let r1 := { base with data := data, success := true }
    let r2 :=
      if save_db && has_db then
        match dbSave with
        | .ok sid => { r1 with session_id := some sid }
        | .error e => { r1 with db_error := some e }
      else r1
    if save_json then
      let filename := chosenJsonFilename jsonName scraper_type url
      match save_to_json jsonWrite with
      | .ok _ => { r2 with json_filename := some filename }
      | .error e => { r2 with json_error := some e }
    else r2

/-! Helper lemmas. -/

theorem find?_append_of_none {α : Type} (p : α → Bool) (l₁ l₂ : List α)
    (h : l₁.find? p = none) : (l₁ ++ l₂).find? p = l₂.find? p := by
  rw [List.find?_append, h]
  rfl

theorem sessions_find?_eq_none (l : List SessionRow) (n : Nat)
    (h : ∀ s ∈ l, s.id < n) : l.find? (fun s => s.id == n) = none := by
  rw [List.find?_eq_none]
  intro s hs
  simpa using Nat.ne_of_lt (h s hs)

theorem filter_proj_eq_nil {α : Type} (f : α → Nat) (l : List α) (n : Nat)
    (h : ∀ x ∈ l, f x < n) : l.filter (fun x => f x == n) = [] := by
  rw [List.filter_eq_nil_iff]
  intro x hx
  simpa using Nat.ne_of_lt (h x hx)

theorem filter_proj_eq_self {α : Type} (f : α → Nat) (l : List α) (n : Nat)
    (h : ∀ x ∈ l, f x = n) : l.filter (fun x => f x == n) = l := by
  rw [List.filter_eq_self]
  intro x hx
  simpa using h x hx

theorem sortByPosition_of_pairwise (l : List ElementRow)
    (h : l.Pairwise (fun a b => a.position ≤ b.position)) : sortByPosition l = l := by
  induction l with
  | nil => rfl
  | cons x xs ih =>
    rw [sortByPosition, ih (List.Pairwise.of_cons h)]
    cases xs with
    | nil => rfl
    | cons y ys =>
      have hxy : x.position ≤ y.position := (List.pairwise_cons.mp h).1 y (by simp)
      simp [insertByPosition, hxy]

theorem enumFrom_pairwise_fst_le {α : Type} (l : List α) :
    ∀ n : Nat, (List.enumFrom n l).Pairwise (fun a b => a.1 ≤ b.1) := by
  induction l with
  | nil => intro n; simp
  | cons x xs ih =>
    intro n
    rw [List.enumFrom_cons, List.pairwise_cons]
    refine ⟨?_, ih (n + 1)⟩
    rintro ⟨i, a⟩ hp
    exact Nat.le_of_succ_le (List.mem_enumFrom hp).1

theorem elementRows_pairwise (sid : Nat) (css : String) (R : List String) :
    (R.enum.map (fun p => (⟨sid, css, p.2, p.1⟩ : ElementRow))).Pairwise
      (fun a b => a.position ≤ b.position) := by
  rw [List.pairwise_map]
  exact enumFrom_pairwise_fst_le R 0

/-! Session rows appended by the public save operations. -/

theorem save_element_sessions (st : Store) (url css : String) (R : List String)
    (md : Option Metadata) (f : Option String) :
    (DatabaseService.save_element_extraction st url css R md f).2.sessions =
      st.sessions ++ [opSessionRow st (.element url css R md f)] := by
  unfold DatabaseService.save_element_extraction ElementRepository.save_batch
    ScrapingSessionRepository.save opSessionRow
  cases R <;> cases f <;> rfl

theorem save_link_sessions (st : Store) (url : String) (R : List String)
    (md : Option Metadata) (f : Option String) :
    (DatabaseService.save_link_extraction st url R md f).2.sessions =
      st.sessions ++ [opSessionRow st (.link url R md f)] := by
  unfold DatabaseService.save_link_extraction LinkRepository.save_batch
    ScrapingSessionRepository.save opSessionRow
  cases R <;> cases f <;> rfl

theorem save_email_sessions (st : Store) (url : String) (R : List String)
    (md : Option Metadata) (f : Option String) :
    (DatabaseService.save_email_extraction st url R md f).2.sessions =
      st.sessions ++ [opSessionRow st (.email url R md f)] := by
  unfold DatabaseService.save_email_extraction EmailRepository.save_batch
    ScrapingSessionRepository.save opSessionRow
  cases R <;> cases f <;> rfl

theorem save_image_sessions (st : Store) (url : String) (R : List String)
    (md : Option Metadata) (f : Option String) :
    (DatabaseService.save_image_extraction st url R md f).2.sessions =
      st.sessions ++ [opSessionRow st (.image url R md f)] := by
  unfold DatabaseService.save_image_extraction ImageRepository.save_batch
    ScrapingSessionRepository.save opSessionRow
  cases R <;> cases f <;> rfl

theorem save_failed_sessions (st : Store) (url t e : String) (md : Option Metadata) :
    (DatabaseService.save_failed_extraction st url t e md).2.sessions =
      st.sessions ++ [opSessionRow st (.failed url t e md)] := rfl

theorem applyOp_sessions (st : Store) (op : SaveOp) :
    (applyOp st op).sessions = st.sessions ++ [opSessionRow st op] := by
  cases op with
  | element url css R md f => exact save_element_sessions st url css R md f
  | link url R md f => exact save_link_sessions st url R md f
  | email url R md f => exact save_email_sessions st url R md f
  | image url R md f => exact save_image_sessions st url R md f
  | failed url t e md => exact save_failed_sessions st url t e md

theorem sessionRowOk_opSessionRow (st : Store) (op : SaveOp) :
    SessionRowOk (opSessionRow st op) := by
  cases op with
  | failed url t e md =>
    refine ⟨Or.inr rfl, ?_⟩
    show (some e).isSome = true ↔ ("failed" : String) = "failed"
    simp
  | element url css R md f =>
    refine ⟨Or.inl rfl, ?_⟩
    show (none : Option String).isSome = true ↔ ("success" : String) = "failed"
    decide
  | link url R md f =>
    refine ⟨Or.inl rfl, ?_⟩
    show (none : Option String).isSome = true ↔ ("success" : String) = "failed"
    decide
  | email url R md f =>
    refine ⟨Or.inl rfl, ?_⟩
    show (none : Option String).isSome = true ↔ ("success" : String) = "failed"
    decide
  | image url R md f =>
    refine ⟨Or.inl rfl, ?_⟩
    show (none : Option String).isSome = true ↔ ("success" : String) = "failed"
    decide

theorem sessionsOk_applyOp (st : Store) (op : SaveOp)
    (h : ∀ s ∈ st.sessions, SessionRowOk s) :
    ∀ s ∈ (applyOp st op).sessions, SessionRowOk s := by
  rw [applyOp_sessions]
  intro s hs
  rcases List.mem_append.mp hs with h1 | h2
  · exact h s h1
  · rw [List.mem_singleton.mp h2]
    exact sessionRowOk_opSessionRow st op

theorem sessionsOk_runOps (ops : List SaveOp) :
    ∀ s ∈ (runOps Store.empty ops).sessions, SessionRowOk s := by
  have main : ∀ (l : List SaveOp) (st : Store), (∀ s ∈ st.sessions, SessionRowOk s) →
      ∀ s ∈ (runOps st l).sessions, SessionRowOk s := by
    intro l
    induction l with
    | nil => intro st h; exact h
    | cons op rest ih => intro st h; exact ih (applyOp st op) (sessionsOk_applyOp st op h)
  refine main ops Store.empty ?_
  intro s hs
  simp [Store.empty] at hs

theorem filter_status_length (l : List SessionRow)
    (h : ∀ s ∈ l, s.status = "success" ∨ s.status = "failed") :
    (l.filter (fun s => s.status == "success")).length +
      (l.filter (fun s => s.status == "failed")).length = l.length := by
  induction l with
  | nil => rfl
  | cons x xs ih =>
    have ih2 := ih (fun s hs => h s (List.mem_cons_of_mem x hs))
    rcases h x (by simp) with h1 | h1
    · rw [List.filter_cons, List.filter_cons, h1,
        if_pos (show (("success" : String) == "success") = true from by decide),
        if_neg (show ¬(("success" : String) == "failed") = true from by decide)]
      simp only [List.length_cons]
      omega
    · rw [List.filter_cons, List.filter_cons, h1,
        if_neg (show ¬(("failed" : String) == "success") = true from by decide),
        if_pos (show (("failed" : String) == "failed") = true from by decide)]
      simp only [List.length_cons]
      omega

/-- C8: after any sequence of calls to the public save operations — including
sequences in which some batch commits failed — get_statistics returns counts
with total_sessions = successful_sessions + failed_sessions. -/
theorem C8_statistics_total (ops : List SaveOp) :
    (DatabaseService.get_statistics (runOps Store.empty ops)).total_sessions =
      (DatabaseService.get_statistics (runOps Store.empty ops)).successful_sessions +
        (DatabaseService.get_statistics (runOps Store.empty ops)).failed_sessions := by
  have h := sessionsOk_runOps ops
  exact (filter_status_length _ (fun s hs => (h s hs).1)).symm

/-! Round-trip lemmas: save_K_extraction then get_session_data. -/

theorem save_element_store (st : Store) (url css : String) (R : List String)
    (md : Option Metadata) :
    (DatabaseService.save_element_extraction st url css R md none).1 = .ok st.next_id ∧
    (DatabaseService.save_element_extraction st url css R md none).2 =
      { st with
        sessions := st.sessions ++ [⟨st.next_id, url, "element_extraction", "success", none,
          some (("css_selector", css) :: md.getD [])⟩],
        elements := st.elements ++ R.enum.map (fun p => ⟨st.next_id, css, p.2, p.1⟩),
        next_id := st.next_id + 1 } := by
  cases R with
  | nil =>
    refine ⟨rfl, ?_⟩
    simp [DatabaseService.save_element_extraction, ScrapingSessionRepository.save]
  | cons a as => exact ⟨rfl, rfl⟩

theorem find_by_id_append (sessions : List SessionRow) (row : SessionRow) (n : Nat)
    (hlt : ∀ s ∈ sessions, s.id < n) (hrow : row.id = n) :
    (sessions ++ [row]).find? (fun s => s.id == n) = some row := by
  rw [find?_append_of_none _ _ _ (sessions_find?_eq_none sessions n hlt)]
  simp [List.find?, hrow]

theorem elementRows_filter_nil (l : List ElementRow) (n : Nat)
    (h : ∀ e ∈ l, e.session_id < n) : l.filter (fun e => e.session_id == n) = [] :=
  filter_proj_eq_nil (fun e : ElementRow => e.session_id) l n h

theorem elementRows_filter_self (css : String) (n : Nat) (R : List String) :
    (R.enum.map (fun p => (⟨n, css, p.2, p.1⟩ : ElementRow))).filter
      (fun e => e.session_id == n) = R.enum.map (fun p => ⟨n, css, p.2, p.1⟩) := by
  refine filter_proj_eq_self (fun e : ElementRow => e.session_id) _ n ?_
  intro x hx
  obtain ⟨p, hp, rfl⟩ := List.mem_map.mp hx
  rfl

theorem sorted_filter_elements (old : List ElementRow) (css : String) (R : List String) (n : Nat)
    (hold : ∀ e ∈ old, e.session_id < n) :
    sortByPosition ((old ++ R.enum.map (fun p => (⟨n, css, p.2, p.1⟩ : ElementRow))).filter
      (fun e => e.session_id == n)) = R.enum.map (fun p => ⟨n, css, p.2, p.1⟩) := by
  rw [List.filter_append, elementRows_filter_nil old n hold, elementRows_filter_self css n R,
    List.nil_append]
  exact sortByPosition_of_pairwise _ (elementRows_pairwise n css R)

theorem get_after_save_element (st : Store) (url css : String) (R : List String)
    (md : Option Metadata) (hwf : st.WF) :
    DatabaseService.get_session_data
        (DatabaseService.save_element_extraction st url css R md none).2 st.next_id =
      some ⟨⟨st.next_id, url, "element_extraction", "success",
          some (("css_selector", css) :: md.getD [])⟩,
        .elements (R.enum.map (fun p => ⟨p.2, css, p.1⟩))⟩ := by
  rw [(save_element_store st url css R md).2]
  have hfind : ScrapingSessionRepository.find_by_id
      { st with
        sessions := st.sessions ++ [⟨st.next_id, url, "element_extraction", "success", none,
          some (("css_selector", css) :: md.getD [])⟩],
        elements := st.elements ++ R.enum.map (fun p => ⟨st.next_id, css, p.2, p.1⟩),
        next_id := st.next_id + 1 } st.next_id =
      some ⟨st.next_id, url, "element_extraction", "success", none,
          some (("css_selector", css) :: md.getD [])⟩ := by
    unfold ScrapingSessionRepository.find_by_id
    exact find_by_id_append st.sessions _ st.next_id hwf.1 rfl
  simp only [DatabaseService.get_session_data, hfind]
  rw [if_pos (show (("element_extraction" : String) == "element_extraction") = true
    from by decide)]
  unfold ElementRepository.find_by_session
  rw [sorted_filter_elements st.elements css R st.next_id hwf.2.1, List.map_map]
  rfl

theorem save_link_store (st : Store) (url : String) (R : List String) (md : Option Metadata) :
    (DatabaseService.save_link_extraction st url R md none).1 = .ok st.next_id ∧
    (DatabaseService.save_link_extraction st url R md none).2 =
      { st with
        sessions := st.sessions ++ [⟨st.next_id, url, "link_extraction", "success", none, md⟩],
        links := st.links ++ R.map (fun u => ⟨st.next_id, u, linkIsExternal u, true⟩),
        next_id := st.next_id + 1 } := by
  cases R with
  | nil =>
    refine ⟨rfl, ?_⟩
    simp [DatabaseService.save_link_extraction, ScrapingSessionRepository.save]
  | cons a as => exact ⟨rfl, rfl⟩

theorem save_email_store (st : Store) (url : String) (R : List String) (md : Option Metadata) :
    (DatabaseService.save_email_extraction st url R md none).1 = .ok st.next_id ∧
    (DatabaseService.save_email_extraction st url R md none).2 =
      { st with
        sessions := st.sessions ++ [⟨st.next_id, url, "email_extraction", "success", none, md⟩],
        emails := st.emails ++ R.map (fun a => ⟨st.next_id, a⟩),
        next_id := st.next_id + 1 } := by
  cases R with
  | nil =>
    refine ⟨rfl, ?_⟩
    simp [DatabaseService.save_email_extraction, ScrapingSessionRepository.save]
  | cons a as => exact ⟨rfl, rfl⟩

theorem save_image_store (st : Store) (url : String) (R : List String) (md : Option Metadata) :
    (DatabaseService.save_image_extraction st url R md none).1 = .ok st.next_id ∧
    (DatabaseService.save_image_extraction st url R md none).2 =
      { st with
        sessions := st.sessions ++ [⟨st.next_id, url, "image_extraction", "success", none, md⟩],
        images := st.images ++ R.map (fun u => ⟨st.next_id, u, none, none⟩),
        next_id := st.next_id + 1 } := by
  cases R with
  | nil =>
    refine ⟨rfl, ?_⟩
    simp [DatabaseService.save_image_extraction, ScrapingSessionRepository.save]
  | cons a as => exact ⟨rfl, rfl⟩

theorem linkRows_filter_nil (l : List LinkRow) (n : Nat)
    (h : ∀ x ∈ l, x.session_id < n) : l.filter (fun l => l.session_id == n) = [] :=
  filter_proj_eq_nil (fun x : LinkRow => x.session_id) l n h

theorem linkRows_filter_self (n : Nat) (R : List String) :
    (R.map (fun u => (⟨n, u, linkIsExternal u, true⟩ : LinkRow))).filter
      (fun l => l.session_id == n) = R.map (fun u => ⟨n, u, linkIsExternal u, true⟩) := by
  refine filter_proj_eq_self (fun x : LinkRow => x.session_id) _ n ?_
  intro x hx
  obtain ⟨p, hp, rfl⟩ := List.mem_map.mp hx
  rfl

theorem emailRows_filter_nil (l : List EmailRow) (n : Nat)
    (h : ∀ x ∈ l, x.session_id < n) : l.filter (fun e => e.session_id == n) = [] :=
  filter_proj_eq_nil (fun x : EmailRow => x.session_id) l n h

theorem emailRows_filter_self (n : Nat) (R : List String) :
    (R.map (fun a => (⟨n, a⟩ : EmailRow))).filter
      (fun e => e.session_id == n) = R.map (fun a => ⟨n, a⟩) := by
  refine filter_proj_eq_self (fun x : EmailRow => x.session_id) _ n ?_
  intro x hx
  obtain ⟨p, hp, rfl⟩ := List.mem_map.mp hx
  rfl

theorem imageRows_filter_nil (l : List ImageRow) (n : Nat)
    (h : ∀ x ∈ l, x.session_id < n) : l.filter (fun i => i.session_id == n) = [] :=
  filter_proj_eq_nil (fun x : ImageRow => x.session_id) l n h

theorem imageRows_filter_self (n : Nat) (R : List String) :
    (R.map (fun u => (⟨n, u, none, none⟩ : ImageRow))).filter
      (fun i => i.session_id == n) = R.map (fun u => ⟨n, u, none, none⟩) := by
  refine filter_proj_eq_self (fun x : ImageRow => x.session_id) _ n ?_
  intro x hx
  obtain ⟨p, hp, rfl⟩ := List.mem_map.mp hx
  rfl

theorem get_after_save_link (st : Store) (url : String) (R : List String)
    (md : Option Metadata) (hwf : st.WF) :
    DatabaseService.get_session_data
        (DatabaseService.save_link_extraction st url R md none).2 st.next_id =
      some ⟨⟨st.next_id, url, "link_extraction", "success", md⟩,
        .links (R.map (fun u => ⟨u, linkIsExternal u, true⟩))⟩ := by
  rw [(save_link_store st url R md).2]
  have hfind : ScrapingSessionRepository.find_by_id
      { st with
        sessions := st.sessions ++ [⟨st.next_id, url, "link_extraction", "success", none, md⟩],
        links := st.links ++ R.map (fun u => ⟨st.next_id, u, linkIsExternal u, true⟩),
        next_id := st.next_id + 1 } st.next_id =
      some ⟨st.next_id, url, "link_extraction", "success", none, md⟩ := by
    unfold ScrapingSessionRepository.find_by_id
    exact find_by_id_append st.sessions _ st.next_id hwf.1 rfl
  simp only [DatabaseService.get_session_data, hfind]
  rw [if_neg (show ¬(("link_extraction" : String) == "element_extraction") = true
      from by decide),
    if_pos (show (("link_extraction" : String) == "link_extraction") = true from by decide)]
  unfold LinkRepository.find_by_session
  rw [List.filter_append, linkRows_filter_nil st.links st.next_id hwf.2.2.1,
    linkRows_filter_self st.next_id R, List.nil_append, List.map_map]
  rfl

theorem get_after_save_email (st : Store) (url : String) (R : List String)
    (md : Option Metadata) (hwf : st.WF) :
    DatabaseService.get_session_data
        (DatabaseService.save_email_extraction st url R md none).2 st.next_id =
      some ⟨⟨st.next_id, url, "email_extraction", "success", md⟩, .emails R⟩ := by
  rw [(save_email_store st url R md).2]
  have hfind : ScrapingSessionRepository.find_by_id
      { st with
        sessions := st.sessions ++ [⟨st.next_id, url, "email_extraction", "success", none, md⟩],
        emails := st.emails ++ R.map (fun a => ⟨st.next_id, a⟩),
        next_id := st.next_id + 1 } st.next_id =
      some ⟨st.next_id, url, "email_extraction", "success", none, md⟩ := by
    unfold ScrapingSessionRepository.find_by_id
    exact find_by_id_append st.sessions _ st.next_id hwf.1 rfl
  simp only [DatabaseService.get_session_data, hfind]
  rw [if_neg (show ¬(("email_extraction" : String) == "element_extraction") = true
      from by decide),
    if_neg (show ¬(("email_extraction" : String) == "link_extraction") = true from by decide),
    if_pos (show (("email_extraction" : String) == "email_extraction") = true from by decide)]
  unfold EmailRepository.find_by_session
  rw [List.filter_append, emailRows_filter_nil st.emails st.next_id hwf.2.2.2.1,
    emailRows_filter_self st.next_id R, List.nil_append, List.map_map]
  show some _ = _
  rw [show (List.map ((fun e : EmailRow => e.email) ∘ fun a => (⟨st.next_id, a⟩ : EmailRow)) R)
      = List.map (fun a => a) R from rfl, List.map_id']

theorem get_after_save_image (st : Store) (url : String) (R : List String)
    (md : Option Metadata) (hwf : st.WF) :
    DatabaseService.get_session_data
        (DatabaseService.save_image_extraction st url R md none).2 st.next_id =
      some ⟨⟨st.next_id, url, "image_extraction", "success", md⟩,
        .images (R.map (fun u => ⟨u, none, none⟩))⟩ := by
  rw [(save_image_store st url R md).2]
  have hfind : ScrapingSessionRepository.find_by_id
      { st with
        sessions := st.sessions ++ [⟨st.next_id, url, "image_extraction", "success", none, md⟩],
        images := st.images ++ R.map (fun u => ⟨st.next_id, u, none, none⟩),
        next_id := st.next_id + 1 } st.next_id =
      some ⟨st.next_id, url, "image_extraction", "success", none, md⟩ := by
    unfold ScrapingSessionRepository.find_by_id
    exact find_by_id_append st.sessions _ st.next_id hwf.1 rfl
  simp only [DatabaseService.get_session_data, hfind]
  rw [if_neg (show ¬(("image_extraction" : String) == "element_extraction") = true
      from by decide),
    if_neg (show ¬(("image_extraction" : String) == "link_extraction") = true from by decide),
    if_neg (show ¬(("image_extraction" : String) == "email_extraction") = true from by decide),
    if_pos (show (("image_extraction" : String) == "image_extraction") = true from by decide)]
  unfold ImageRepository.find_by_session
  rw [List.filter_append, imageRows_filter_nil st.images st.next_id hwf.2.2.2.2,
    imageRows_filter_self st.next_id R, List.nil_append, List.map_map]
  rfl

/-! Claims C1, C3, C4, C10. -/

/-- C3: for every kind (element, link, email, image), saving a non-empty result
sequence R and reading the session back with get_session_data yields exactly
the items of R translated into that kind's row shape — one entry per item,
carrying the item's value — and for elements in input order, positions 0..n-1. -/
theorem C3_save_then_get_roundtrip (st : Store) (url css : String) (R : List String)
    (md : Option Metadata) (hwf : st.WF) (hne : R ≠ []) :
    ((DatabaseService.save_element_extraction st url css R md none).1 = .ok st.next_id ∧
      DatabaseService.get_session_data
          (DatabaseService.save_element_extraction st url css R md none).2 st.next_id =
        some ⟨⟨st.next_id, url, "element_extraction", "success",
            some (("css_selector", css) :: md.getD [])⟩,
          .elements (R.enum.map (fun p => ⟨p.2, css, p.1⟩))⟩) ∧
    ((DatabaseService.save_link_extraction st url R md none).1 = .ok st.next_id ∧
      DatabaseService.get_session_data
          (DatabaseService.save_link_extraction st url R md none).2 st.next_id =
        some ⟨⟨st.next_id, url, "link_extraction", "success", md⟩,
          .links (R.map (fun u => ⟨u, linkIsExternal u, true⟩))⟩) ∧
    ((DatabaseService.save_email_extraction st url R md none).1 = .ok st.next_id ∧
      DatabaseService.get_session_data
          (DatabaseService.save_email_extraction st url R md none).2 st.next_id =
        some ⟨⟨st.next_id, url, "email_extraction", "success", md⟩, .emails R⟩) ∧
    ((DatabaseService.save_image_extraction st url R md none).1 = .ok st.next_id ∧
      DatabaseService.get_session_data
          (DatabaseService.save_image_extraction st url R md none).2 st.next_id =
        some ⟨⟨st.next_id, url, "image_extraction", "success", md⟩,
          .images (R.map (fun u => ⟨u, none, none⟩))⟩) :=
  ⟨⟨(save_element_store st url css R md).1, get_after_save_element st url css R md hwf⟩,
   ⟨(save_link_store st url R md).1, get_after_save_link st url R md hwf⟩,
   ⟨(save_email_store st url R md).1, get_after_save_email st url R md hwf⟩,
   ⟨(save_image_store st url R md).1, get_after_save_image st url R md hwf⟩⟩

/-- Witness for C3: the round trip at the empty store with R = ["x", "y"]. -/
theorem C3_save_then_get_roundtrip_witness :
    Store.empty.WF ∧ (["x", "y"] : List String) ≠ [] ∧
    (((DatabaseService.save_element_extraction Store.empty "http://u" "p" ["x", "y"] none
          none).1 = .ok Store.empty.next_id ∧
      DatabaseService.get_session_data
          (DatabaseService.save_element_extraction Store.empty "http://u" "p" ["x", "y"] none
            none).2 Store.empty.next_id =
        some ⟨⟨Store.empty.next_id, "http://u", "element_extraction", "success",
            some (("css_selector", "p") :: (none : Option Metadata).getD [])⟩,
          .elements ((["x", "y"] : List String).enum.map (fun p => ⟨p.2, "p", p.1⟩))⟩) ∧
    ((DatabaseService.save_link_extraction Store.empty "http://u" ["x", "y"] none none).1 =
        .ok Store.empty.next_id ∧
      DatabaseService.get_session_data
          (DatabaseService.save_link_extraction Store.empty "http://u" ["x", "y"] none
            none).2 Store.empty.next_id =
        some ⟨⟨Store.empty.next_id, "http://u", "link_extraction", "success", none⟩,
          .links ((["x", "y"] : List String).map (fun u => ⟨u, linkIsExternal u, true⟩))⟩) ∧
    ((DatabaseService.save_email_extraction Store.empty "http://u" ["x", "y"] none none).1 =
        .ok Store.empty.next_id ∧
      DatabaseService.get_session_data
          (DatabaseService.save_email_extraction Store.empty "http://u" ["x", "y"] none
            none).2 Store.empty.next_id =
        some ⟨⟨Store.empty.next_id, "http://u", "email_extraction", "success", none⟩,
          .emails ["x", "y"]⟩) ∧
    ((DatabaseService.save_image_extraction Store.empty "http://u" ["x", "y"] none none).1 =
        .ok Store.empty.next_id ∧
      DatabaseService.get_session_data
          (DatabaseService.save_image_extraction Store.empty "http://u" ["x", "y"] none
            none).2 Store.empty.next_id =
        some ⟨⟨Store.empty.next_id, "http://u", "image_extraction", "success", none⟩,
          .images ((["x", "y"] : List String).map (fun u => ⟨u, none, none⟩))⟩)) :=
  ⟨by decide, by decide,
    C3_save_then_get_roundtrip Store.empty "http://u" "p" ["x", "y"] none (by decide)
      (by decide)⟩

/-- C1 counterexample: saving one element with a failing batch commit raises,
but the store is NOT left unchanged — the session row, committed in its own
transaction before the batch, stays persisted with zero child rows. -/
theorem C1_counterexample :
    (DatabaseService.save_element_extraction Store.empty "http://u" "p" ["x"] none
        (some "insert failed")).1 = .error "insert failed" ∧
    (DatabaseService.save_element_extraction Store.empty "http://u" "p" ["x"] none
        (some "insert failed")).2 ≠ Store.empty ∧
    (DatabaseService.save_element_extraction Store.empty "http://u" "p" ["x"] none
        (some "insert failed")).2.sessions =
      [⟨0, "http://u", "element_extraction", "success", none, some [("css_selector", "p")]⟩] ∧
    (DatabaseService.save_element_extraction Store.empty "http://u" "p" ["x"] none
        (some "insert failed")).2.elements = [] := by
  refine ⟨rfl, ?_, rfl, rfl⟩
  decide

/-- C1 amended: for every kind, when the child-row batch commit fails on a
non-empty result sequence, the error does propagate to the caller, but the
store is not rolled back as a whole: the session row (committed first, in its
own transaction) remains, while the child tables are untouched — only the
batch itself is all-or-nothing. -/
theorem C1_amended_session_survives_batch_failure (st : Store) (url css : String)
    (R : List String) (md : Option Metadata) (msg : String) (hR : R ≠ []) :
    ((DatabaseService.save_element_extraction st url css R md (some msg)).1 = .error msg ∧
      (DatabaseService.save_element_extraction st url css R md (some msg)).2 =
        { st with
          sessions := st.sessions ++ [⟨st.next_id, url, "element_extraction", "success", none,
            some (("css_selector", css) :: md.getD [])⟩],
          next_id := st.next_id + 1 }) ∧
    ((DatabaseService.save_link_extraction st url R md (some msg)).1 = .error msg ∧
      (DatabaseService.save_link_extraction st url R md (some msg)).2 =
        { st with
          sessions := st.sessions ++ [⟨st.next_id, url, "link_extraction", "success", none, md⟩],
          next_id := st.next_id + 1 }) ∧
    ((DatabaseService.save_email_extraction st url R md (some msg)).1 = .error msg ∧
      (DatabaseService.save_email_extraction st url R md (some msg)).2 =
        { st with
          sessions := st.sessions ++ [⟨st.next_id, url, "email_extraction", "success", none, md⟩],
          next_id := st.next_id + 1 }) ∧
    ((DatabaseService.save_image_extraction st url R md (some msg)).1 = .error msg ∧
      (DatabaseService.save_image_extraction st url R md (some msg)).2 =
        { st with
          sessions := st.sessions ++ [⟨st.next_id, url, "image_extraction", "success", none, md⟩],
          next_id := st.next_id + 1 }) := by
  obtain ⟨a, as, rfl⟩ := List.exists_cons_of_ne_nil hR
  exact ⟨⟨rfl, rfl⟩, ⟨rfl, rfl⟩, ⟨rfl, rfl⟩, ⟨rfl, rfl⟩⟩

/-- Witness for the amended C1 at the empty store with R = ["x"]. -/
theorem C1_amended_session_survives_batch_failure_witness :
    (["x"] : List String) ≠ [] ∧
    (((DatabaseService.save_element_extraction Store.empty "u" "p" ["x"] none (some "boom")).1 =
        .error "boom" ∧
      (DatabaseService.save_element_extraction Store.empty "u" "p" ["x"] none (some "boom")).2 =
        { Store.empty with
          sessions := Store.empty.sessions ++ [⟨Store.empty.next_id, "u", "element_extraction",
            "success", none, some (("css_selector", "p") :: (none : Option Metadata).getD [])⟩],
          next_id := Store.empty.next_id + 1 }) ∧
    ((DatabaseService.save_link_extraction Store.empty "u" ["x"] none (some "boom")).1 =
        .error "boom" ∧
      (DatabaseService.save_link_extraction Store.empty "u" ["x"] none (some "boom")).2 =
        { Store.empty with
          sessions := Store.empty.sessions ++ [⟨Store.empty.next_id, "u", "link_extraction",
            "success", none, none⟩],
          next_id := Store.empty.next_id + 1 }) ∧
    ((DatabaseService.save_email_extraction Store.empty "u" ["x"] none (some "boom")).1 =
        .error "boom" ∧
      (DatabaseService.save_email_extraction Store.empty "u" ["x"] none (some "boom")).2 =
        { Store.empty with
          sessions := Store.empty.sessions ++ [⟨Store.empty.next_id, "u", "email_extraction",
            "success", none, none⟩],
          next_id := Store.empty.next_id + 1 }) ∧
    ((DatabaseService.save_image_extraction Store.empty "u" ["x"] none (some "boom")).1 =
        .error "boom" ∧
      (DatabaseService.save_image_extraction Store.empty "u" ["x"] none (some "boom")).2 =
        { Store.empty with
          sessions := Store.empty.sessions ++ [⟨Store.empty.next_id, "u", "image_extraction",
            "success", none, none⟩],
          next_id := Store.empty.next_id + 1 })) :=
  ⟨by decide,
    C1_amended_session_survives_batch_failure Store.empty "u" "p" ["x"] none "boom" (by decide)⟩

/-- C4: a session recorded by save_failed_extraction has status failed, carries
the supplied (non-empty) error message, and owns zero child rows of any of the
four typed kinds; and across any sequence of public save operations, a session
has an error message exactly when its status is failed. -/
theorem C4_failed_session_shape :
    (∀ (st : Store) (url t msg : String) (md : Option Metadata), msg ≠ "" → st.WF →
      (DatabaseService.save_failed_extraction st url t msg md).1 = .ok st.next_id ∧
      (DatabaseService.save_failed_extraction st url t msg md).2.sessions =
        st.sessions ++ [⟨st.next_id, url, t, "failed", some msg, md⟩] ∧
      ElementRepository.find_by_session
        (DatabaseService.save_failed_extraction st url t msg md).2 st.next_id = [] ∧
      LinkRepository.find_by_session
        (DatabaseService.save_failed_extraction st url t msg md).2 st.next_id = [] ∧
      EmailRepository.find_by_session
        (DatabaseService.save_failed_extraction st url t msg md).2 st.next_id = [] ∧
      ImageRepository.find_by_session
        (DatabaseService.save_failed_extraction st url t msg md).2 st.next_id = []) ∧
    (∀ ops : List SaveOp, ∀ s ∈ (runOps Store.empty ops).sessions,
      s.error_message.isSome ↔ s.status = "failed") := by
  constructor
  · intro st url t msg md hmsg hwf
    refine ⟨rfl, rfl, ?_, ?_, ?_, ?_⟩
    · show sortByPosition (st.elements.filter (fun e => e.session_id == st.next_id)) = []
      rw [elementRows_filter_nil st.elements st.next_id hwf.2.1]
      rfl
    · exact linkRows_filter_nil st.links st.next_id hwf.2.2.1
    · exact emailRows_filter_nil st.emails st.next_id hwf.2.2.2.1
    · exact imageRows_filter_nil st.images st.next_id hwf.2.2.2.2
  · intro ops s hs
    exact (sessionsOk_runOps ops s hs).2

/-- Witness for C4's first part at the empty store. -/
theorem C4_failed_session_shape_witness :
    ("boom" : String) ≠ "" ∧ Store.empty.WF ∧
    ((DatabaseService.save_failed_extraction Store.empty "u" "link_extraction" "boom" none).1 =
        .ok Store.empty.next_id ∧
      (DatabaseService.save_failed_extraction Store.empty "u" "link_extraction" "boom"
          none).2.sessions =
        Store.empty.sessions ++ [⟨Store.empty.next_id, "u", "link_extraction", "failed",
          some "boom", none⟩] ∧
      ElementRepository.find_by_session
        (DatabaseService.save_failed_extraction Store.empty "u" "link_extraction" "boom"
          none).2 Store.empty.next_id = [] ∧
      LinkRepository.find_by_session
        (DatabaseService.save_failed_extraction Store.empty "u" "link_extraction" "boom"
          none).2 Store.empty.next_id = [] ∧
      EmailRepository.find_by_session
        (DatabaseService.save_failed_extraction Store.empty "u" "link_extraction" "boom"
          none).2 Store.empty.next_id = [] ∧
      ImageRepository.find_by_session
        (DatabaseService.save_failed_extraction Store.empty "u" "link_extraction" "boom"
          none).2 Store.empty.next_id = []) :=
  ⟨by decide, by decide,
    C4_failed_session_shape.1 Store.empty "u" "link_extraction" "boom" none (by decide)
      (by decide)⟩

/-- C10: the stored link rows carry is_external = false exactly for URLs that
start with '/' or contain 'localhost', and true otherwise; in particular the
relative URL "page.html" is stored as external. -/
theorem C10_external_flag (st : Store) (url : String) (links : List String)
    (md : Option Metadata) (hwf : st.WF) :
    LinkRepository.find_by_session
        (DatabaseService.save_link_extraction st url links md none).2 st.next_id =
      links.map (fun u => ⟨st.next_id, u, linkIsExternal u, true⟩) ∧
    (∀ u : String, linkIsExternal u = false ↔
      (charStartsWith u "/" || strHasSub u "localhost") = true) ∧
    linkIsExternal "page.html" = true ∧
    linkIsExternal "/about" = false ∧
    linkIsExternal "http://localhost:8000/home" = false := by
  refine ⟨?_, ?_, by decide, by decide, by decide⟩
  · rw [(save_link_store st url links md).2]
    unfold LinkRepository.find_by_session
    rw [List.filter_append, linkRows_filter_nil st.links st.next_id hwf.2.2.1,
      linkRows_filter_self st.next_id links, List.nil_append]
  · intro u
    unfold linkIsExternal
    cases h1 : charStartsWith u "/" <;> cases h2 : strHasSub u "localhost" <;> simp [h1, h2]

/-- Witness for C10 at the empty store. -/
theorem C10_external_flag_witness :
    Store.empty.WF ∧
    (LinkRepository.find_by_session
        (DatabaseService.save_link_extraction Store.empty "u" ["page.html", "/a"] none
          none).2 Store.empty.next_id =
      (["page.html", "/a"] : List String).map
        (fun u => ⟨Store.empty.next_id, u, linkIsExternal u, true⟩) ∧
    (∀ u : String, linkIsExternal u = false ↔
      (charStartsWith u "/" || strHasSub u "localhost") = true) ∧
    linkIsExternal "page.html" = true ∧
    linkIsExternal "/about" = false ∧
    linkIsExternal "http://localhost:8000/home" = false) :=
  ⟨by decide, C10_external_flag Store.empty "u" ["page.html", "/a"] none (by decide)⟩

/-! Claims about the orchestrator and the extractors. -/

/-- C2: when extraction succeeds but the requested store persistence fails, the
result keeps success = true and data = the extracted results, the extraction
error field stays absent, session_id stays absent, and the store failure is
recorded under the distinct db_error field — independently of any file sink
activity. -/
theorem C2_store_failure_isolated (url stype : String) (save_json : Bool)
    (jsonName : Option String) (data : List String) (e : String)
    (failedSave : Except String Nat) (w : WriteOutcome) :
    (BaseScraper.scrape_and_save url stype true true save_json jsonName (.ok data)
        (.error e) failedSave w).success = true ∧
    (BaseScraper.scrape_and_save url stype true true save_json jsonName (.ok data)
        (.error e) failedSave w).data = data ∧
    (BaseScraper.scrape_and_save url stype true true save_json jsonName (.ok data)
        (.error e) failedSave w).error = none ∧
    (BaseScraper.scrape_and_save url stype true true save_json jsonName (.ok data)
        (.error e) failedSave w).session_id = none ∧
    (BaseScraper.scrape_and_save url stype true true save_json jsonName (.ok data)
        (.error e) failedSave w).db_error = some e := by
  cases save_json <;> cases w <;> exact ⟨rfl, rfl, rfl, rfl, rfl⟩

/-- C7 counterexample: an IOError during the file write is caught and printed
inside save_to_json, so scrape_and_save still attaches json_filename and never
sets json_error — the write failure is NOT reported under a distinct field. -/
theorem C7_counterexample :
    (BaseScraper.scrape_and_save "http://u" "link_extraction" false false true
        (some "out.json") (.ok ["a"]) (.ok 0) (.ok 0) (.ioError "disk full")).json_filename =
      some "out.json" ∧
    (BaseScraper.scrape_and_save "http://u" "link_extraction" false false true
        (some "out.json") (.ok ["a"]) (.ok 0) (.ok 0) (.ioError "disk full")).json_error =
      none := ⟨rfl, rfl⟩

/-- C7 amended: with file persistence requested after a successful extraction,
a successful write attaches the chosen file name under json_filename with
json_error absent; an IOError raised by the write is swallowed inside
save_to_json, so the result still carries json_filename as if the write had
succeeded; only a non-IO exception (e.g. a serialization failure) is attached
under the distinct json_error field, with json_filename then absent.  All of
this is independent of the store outcome. -/
theorem C7_amended_file_sink_reporting (url stype : String) (db has_db : Bool)
    (jsonName : Option String) (data : List String) (dbSave failedSave : Except String Nat) :
    ((BaseScraper.scrape_and_save url stype db has_db true jsonName (.ok data) dbSave
        failedSave .ok).json_filename = some (chosenJsonFilename jsonName stype url) ∧
      (BaseScraper.scrape_and_save url stype db has_db true jsonName (.ok data) dbSave
        failedSave .ok).json_error = none) ∧
    (∀ m : String,
      (BaseScraper.scrape_and_save url stype db has_db true jsonName (.ok data) dbSave
        failedSave (.ioError m)).json_filename = some (chosenJsonFilename jsonName stype url) ∧
      (BaseScraper.scrape_and_save url stype db has_db true jsonName (.ok data) dbSave
        failedSave (.ioError m)).json_error = none) ∧
    (∀ m : String,
      (BaseScraper.scrape_and_save url stype db has_db true jsonName (.ok data) dbSave
        failedSave (.otherError m)).json_error = some m ∧
      (BaseScraper.scrape_and_save url stype db has_db true jsonName (.ok data) dbSave
        failedSave (.otherError m)).json_filename = none) := by
  cases db <;> cases has_db <;> cases dbSave <;>
    exact ⟨⟨rfl, rfl⟩, fun m => ⟨rfl, rfl⟩, fun m => ⟨rfl, rfl⟩⟩

/-- C6 counterexample: a fetch failure in the image extractor does not
propagate — the except clause converts it into a normal empty-list return. -/
theorem C6_counterexample :
    ImageExtractor.scrape "http://u" (.error "connection timed out") = .ok [] := rfl

/-- C6 amended: fetch/parse failures propagate uncaught out of the element,
link and email extractors, for the orchestrator to handle; the image extractor
alone catches every error and returns an empty list as a normal value. -/
theorem C6_amended_fetch_error_propagation (e css url : String)
    (select : String → Soup → Soup) :
    ElementExtractor.scrape select css (.error e) = .error e ∧
    LinkExtractor.scrape (.error e) = .error e ∧
    EmailExtractor.scrape (.error e) = .error e ∧
    ImageExtractor.scrape url (.error e) = .ok [] :=
  ⟨rfl, rfl, rfl, rfl⟩

/-- C5 counterexample: for a page at http://example.com/index.html containing
an anchor with href "page.html", the code returns the raw relative value,
not the absolute form the specification describes. -/
theorem C5_counterexample :
    LinkExtractor.scrape (.ok [⟨"a", [("href", "page.html")], ""⟩]) = .ok ["page.html"] ∧
    specResolvedLinks "http://example.com/index.html" [⟨"a", [("href", "page.html")], ""⟩] =
      ["http://example.com/page.html"] ∧
    (["page.html"] : List String) ≠ ["http://example.com/page.html"] := by
  exact ⟨rfl, by decide, by decide⟩

theorem findAll_map_href (soup : Soup) :
    (findAllWithAttr soup "a" "href").map (fun n => attrGet n "href") =
      soup.filterMap (fun n => if n.tag == "a" then n.attrs.lookup "href" else none) := by
  induction soup with
  | nil => rfl
  | cons n rest ih =>
    rw [findAllWithAttr, List.filterMap_cons]
    cases htag : (n.tag == "a") with
    | false => simpa [htag] using ih
    | true =>
      cases hlook : n.attrs.lookup "href" with
      | none => simpa [htag, hlook] using ih
      | some h => simpa [htag, hlook, attrGet] using ih

/-- C5 amended: on a successfully fetched page the link extractor returns the
href of every anchor node that has one, in document order, exactly as written
in the document — raw, with no resolution against the page URL. -/
theorem C5_amended_raw_hrefs_document_order (soup : Soup) :
    LinkExtractor.scrape (.ok soup) =
      .ok (soup.filterMap (fun n => if n.tag == "a" then n.attrs.lookup "href" else none)) := by
  show Except.ok ((findAllWithAttr soup "a" "href").map (fun n => attrGet n "href")) = _
  rw [findAll_map_href]

theorem pySetAdd_mem (l : List String) (x y : String) :
    y ∈ pySetAdd l x ↔ y ∈ l ∨ y = x := by
  unfold pySetAdd
  by_cases hin : x ∈ l
  · rw [if_pos hin]
    constructor
    · exact Or.inl
    · rintro (h | rfl)
      · exact h
      · exact hin
  · rw [if_neg hin]
    simp [List.mem_append]

theorem pySetAdd_nodup (l : List String) (x : String) (h : l.Nodup) :
    (pySetAdd l x).Nodup := by
  unfold pySetAdd
  by_cases hin : x ∈ l
  · rw [if_pos hin]
    exact h
  · rw [if_neg hin, List.nodup_append]
    refine ⟨h, List.nodup_singleton x, ?_⟩
    intro a ha hax
    rw [List.mem_singleton] at hax
    exact hin (hax ▸ ha)

theorem foldl_emailStep_nodup (ns : Soup) :
    ∀ acc : List String, acc.Nodup → (ns.foldl emailStep acc).Nodup := by
  induction ns with
  | nil => exact fun acc h => h
  | cons n rest ih =>
    intro acc h
    rw [List.foldl_cons]
    refine ih _ ?_
    cases h' : mailtoOf n with
    | none => simpa [emailStep, h'] using h
    | some a => simpa [emailStep, h'] using pySetAdd_nodup acc a h

theorem foldl_emailStep_toFinset (ns : Soup) :
    ∀ acc : List String,
      (ns.foldl emailStep acc).toFinset = acc.toFinset ∪ (ns.filterMap mailtoOf).toFinset := by
  induction ns with
  | nil => intro acc; simp
  | cons n rest ih =>
    intro acc
    rw [List.foldl_cons, ih (emailStep acc n), List.filterMap_cons]
    cases h' : mailtoOf n with
    | none => simp [emailStep, h']
    | some a =>
      simp only [emailStep, h', List.toFinset_cons]
      ext y
      simp only [Finset.mem_union, Finset.mem_insert, List.mem_toFinset, pySetAdd_mem]
      tauto

/-- C9: the email extraction scans anchor hrefs for mailto:, extracts the
address portion of each, and returns the distinct addresses with duplicates
collapsed: the returned list is duplicate-free and carries exactly the set of
address occurrences; on the page with anchors mailto:a@x.com, mailto:b@x.com,
mailto:a@x.com it returns exactly the two entries a@x.com and b@x.com. -/
theorem C9_email_distinct_set (soup : Soup) :
    EmailExtractor.scrape (.ok soup) = .ok (emailScan soup) ∧
    (emailScan soup).Nodup ∧
    (emailScan soup).toFinset = (mailtoOccurrences soup).toFinset ∧
    emailScan [⟨"a", [("href", "mailto:a@x.com")], ""⟩,
               ⟨"a", [("href", "mailto:b@x.com")], ""⟩,
               ⟨"a", [("href", "mailto:a@x.com")], ""⟩] = ["a@x.com", "b@x.com"] := by
  refine ⟨rfl, ?_, ?_, by decide⟩
  · exact foldl_emailStep_nodup (findAllWithAttr soup "a" "href") [] List.nodup_nil
  · unfold emailScan mailtoOccurrences
    rw [foldl_emailStep_toFinset (findAllWithAttr soup "a" "href") []]
    simp

end WebScraper
